import Mathlib

/-!
# Verification of the qwen-llm-rs chat core

A shallow embedding of the session/streaming core of `qwen-llm-rs`
(`src/api.rs`, `src/bindings.rs`, `src/main.rs`) together with theorems
settling the spec claims about it.

Conventions of the embedding:
- Rust `String` becomes Lean `String`; byte buffers (`Vec<u8>`) become
  `List Nat` with an explicit `< 256` bound where it matters.
- External effects (the HTTP transport, `serde_json`, the llama.cpp FFI
  calls) are injected as explicit parameters or oracles, so that the
  repository's own control flow — which is what the claims are about —
  is embedded faithfully and executably.
- Fallible Rust code returning `Result` becomes `Except LlamaError`.
-/

set_option autoImplicit false

namespace QwenLlm

deriving instance DecidableEq for Except

/-- Embeds `enum LlamaError` from `src/api.rs`. The `reqwest`/`io`/`serde`
payloads are reduced to their message strings. -/
inductive LlamaError where
  | Http (msg : String)
  | Io (msg : String)
  | Json (msg : String)
  | Api (status : Nat) (body : String)
  deriving DecidableEq, Repr

/-- Embeds `struct ImageUrl` from `src/api.rs`. -/
structure ImageUrl where
  url : String
  deriving DecidableEq, Repr

/-- Embeds `enum MessagePart` from `src/api.rs`. -/
inductive MessagePart where
  | text (text : String)
  | imageUrl (image_url : ImageUrl)
  deriving DecidableEq, Repr

/-- Embeds `enum MessageContent` from `src/api.rs`. -/
inductive MessageContent where
  | Text (s : String)
  | Parts (parts : List MessagePart)
  deriving DecidableEq, Repr

/-- Embeds `struct Message` from `src/api.rs`. -/
structure Message where
  role : String
  content : MessageContent
  deriving DecidableEq, Repr

/-- Embeds `struct ChunkDelta` from `src/api.rs`. -/
structure ChunkDelta where
  content : Option String
  reasoning_content : Option String
  deriving DecidableEq, Repr

/-- Embeds `struct ChunkChoice` from `src/api.rs`. -/
structure ChunkChoice where
  delta : ChunkDelta
  deriving DecidableEq, Repr

/-- Embeds `struct ChatChunk` from `src/api.rs`. -/
structure ChatChunk where
  choices : List ChunkChoice
  deriving DecidableEq, Repr

/-- Embeds `struct FullMessage` from `src/api.rs`: the `content` field is
`Option<String>` in the source, so a well-formed 2xx body may lack it. -/
structure FullMessage where
  content : Option String
  deriving DecidableEq, Repr

/-- Embeds `struct FullChoice` from `src/api.rs`. -/
structure FullChoice where
  message : FullMessage
  deriving DecidableEq, Repr

/-- Embeds `struct ChatFullResponse` from `src/api.rs`. -/
structure ChatFullResponse where
  choices : List FullChoice
  deriving DecidableEq, Repr

/-- Embeds `enum ChatEvent` from `src/api.rs`. -/
inductive ChatEvent where
  | Content (s : String)
  | Reasoning (s : String)
  deriving DecidableEq, Repr

/-! ## Remote transport oracle

`reqwest` is external; a single non-streaming HTTP exchange is injected as a
`FullNet` value: either the send itself fails, or the server answers with a
status, a text body (read for the error path) and the outcome of parsing the
body as `ChatFullResponse` (the `response.json()` call). -/

/-- One non-streaming HTTP exchange as seen by `LlamaClient::full_request`. -/
inductive FullNet where
  | sendErr (msg : String)
  | resp (status : Nat) (body : String) (json : Except String ChatFullResponse)
  deriving Repr

/-- Embeds `reqwest::StatusCode::is_success`: status in `200..=299`. -/
def isSuccess (status : Nat) : Bool :=
  200 ≤ status && status ≤ 299

/-- Embeds `LlamaClient::full_request` (`src/api.rs:164-181`): send the
request; a non-2xx status yields `LlamaError::Api {status, body}`; otherwise
the body is parsed as `ChatFullResponse` (a parse failure surfaces through
the `reqwest::Error` conversion, i.e. `LlamaError::Http`). -/
def full_request (net : FullNet) : Except LlamaError ChatFullResponse :=
  match net with
  | .sendErr msg => .error (.Http msg)
  | .resp status body json =>
    if !isSuccess status then
      .error (.Api status body)
    else
      match json with
      | .error e => .error (.Http e)
      | .ok r => .ok r

/-! ## Multimodal content encoder

`ChatSession::prepare_user_message` (`src/api.rs:265-288`) reads each image
file, sniffs its MIME type with the `infer` crate, base64-encodes the bytes
with the `base64` crate's `STANDARD` engine, and wraps them as a data-URI.
The two external crates are embedded below from their documented behavior on
the inputs the code exercises. -/

/-- The PNG signature checked by the `infer` crate's PNG matcher:
`0x89 'P' 'N' 'G'`. -/
def pngMagic : List Nat := [0x89, 0x50, 0x4E, 0x47]

/-- The JPEG signature checked by the `infer` crate's JPEG matcher. -/
def jpegMagic : List Nat := [0xFF, 0xD8, 0xFF]

/-- Embeds `infer::get`: magic-byte sniffing returning the matched MIME type,
or `none` when no matcher recognizes the buffer. Only the matchers the
claims exercise (PNG, JPEG) are embedded; every other buffer is
unrecognized. -/
def infer_get (bytes : List Nat) : Option String :=
  if pngMagic.isPrefixOf bytes then some "image/png"
  else if jpegMagic.isPrefixOf bytes then some "image/jpeg"
  else none

/-- The MIME type chosen at `src/api.rs:275`:
`infer::get(&bytes).map_or("image/jpeg", |kind| kind.mime_type())`. -/
def mimeType (bytes : List Nat) : String :=
  (infer_get bytes).getD "image/jpeg"

/-- The 64-character standard base64 alphabet used by
`base64::engine::general_purpose::STANDARD`. -/
def b64Alphabet : List Char :=
  ['A', 'B', 'C', 'D', 'E', 'F', 'G', 'H', 'I', 'J', 'K', 'L', 'M',
   'N', 'O', 'P', 'Q', 'R', 'S', 'T', 'U', 'V', 'W', 'X', 'Y', 'Z',
   'a', 'b', 'c', 'd', 'e', 'f', 'g', 'h', 'i', 'j', 'k', 'l', 'm',
   'n', 'o', 'p', 'q', 'r', 's', 't', 'u', 'v', 'w', 'x', 'y', 'z',
   '0', '1', '2', '3', '4', '5', '6', '7', '8', '9', '+', '/']

/-- The alphabet character for a six-bit group. -/
def sixbitToChar (n : Nat) : Char :=
  b64Alphabet.getD n 'A'

/-- The six-bit value of an alphabet character, `none` for a character
outside the alphabet (in particular for the padding character). -/
def charToSixbit (c : Char) : Option Nat :=
  b64Alphabet.findIdx? (· = c)

/-- Embeds the `base64` crate's `STANDARD.encode`: bytes are consumed three
at a time into four alphabet characters; a trailing group of one or two
bytes is padded with the character that follows. -/
def b64encodeList : List Nat → List Char
  | [] => []
  | [a] =>
    [sixbitToChar (a / 4), sixbitToChar (a % 4 * 16), '=', '=']
  | [a, b] =>
    [sixbitToChar (a / 4), sixbitToChar (a % 4 * 16 + b / 16),
     sixbitToChar (b % 16 * 4), '=']
  | a :: b :: c :: rest =>
    sixbitToChar (a / 4) :: sixbitToChar (a % 4 * 16 + b / 16) ::
    sixbitToChar (b % 16 * 4 + c / 64) :: sixbitToChar (c % 64) ::
    b64encodeList rest

/-- Embeds the `base64` crate's `STANDARD.decode` on the character level:
four-character groups, the last of which may carry one or two padding
characters; non-canonical trailing bits and any other shape are rejected. -/
def b64decodeList : List Char → Option (List Nat)
  | [] => some []
  | c1 :: c2 :: c3 :: c4 :: rest =>
    if c3 = '=' ∧ c4 = '=' ∧ rest = [] then
      match charToSixbit c1, charToSixbit c2 with
      | some n1, some n2 =>
        if n2 % 16 = 0 then some [n1 * 4 + n2 / 16] else none
      | _, _ => none
    else if c4 = '=' ∧ rest = [] then
      match charToSixbit c1, charToSixbit c2, charToSixbit c3 with
      | some n1, some n2, some n3 =>
        if n3 % 4 = 0 then
          some [n1 * 4 + n2 / 16, n2 % 16 * 16 + n3 / 4]
        else none
      | _, _, _ => none
    else
      match charToSixbit c1, charToSixbit c2, charToSixbit c3,
            charToSixbit c4 with
      | some n1, some n2, some n3, some n4 =>
        match b64decodeList rest with
        | some tail =>
          some ((n1 * 4 + n2 / 16) :: (n2 % 16 * 16 + n3 / 4) ::
                (n3 % 4 * 64 + n4) :: tail)
        | none => none
      | _, _, _, _ => none
  | _ => none

/-- String-level base64 encoding, as produced for the `{b64}` interpolation
at `src/api.rs:276`. -/
def b64encode (bytes : List Nat) : String :=
  String.mk (b64encodeList bytes)

/-- String-level base64 decoding. -/
def b64decode (s : String) : Option (List Nat) :=
  b64decodeList s.data

/-- The data-URI built at `src/api.rs:279`:
`format!("data:{mime_type};base64,{b64}")`. -/
def dataUri (bytes : List Nat) : String :=
  "data:" ++ mimeType bytes ++ ";base64," ++ b64encode bytes

/-! ## Chat session (remote backend) -/

/-- Embeds `struct ChatSession` from `src/api.rs` (the `client` field holds
only external transport state and sampling defaults, which the embedded
operations take as explicit oracles instead). -/
structure ChatSession where
  model : String
  messages : List Message
  deriving DecidableEq, Repr

/-- Embeds `ChatSession::push_text` (`src/api.rs:290-295`). -/
def ChatSession.push_text (s : ChatSession) (role : String) (text : String) :
    ChatSession :=
  { s with messages := s.messages ++ [{ role := role, content := .Text text }] }

/-- Embeds `ChatSession::reset` (`src/api.rs:337-339`): clears the message
history. -/
def ChatSession.reset (s : ChatSession) : ChatSession :=
  { s with messages := [] }

/-- The outcome of one `tokio::fs::read` for an image path: the file's bytes,
or an I/O failure. -/
inductive ImageRead where
  | ok (bytes : List Nat)
  | err (msg : String)

/-- The image parts built by the loop at `src/api.rs:273-282`: each readable
file contributes one `image_url` part holding its data-URI; the first
unreadable file aborts with `LlamaError::Io`. -/
def imageParts : List ImageRead → Except LlamaError (List MessagePart)
  | [] => .ok []
  | .err msg :: _ => .error (.Io msg)
  | .ok bytes :: rest =>
    match imageParts rest with
    | .error e => .error e
    | .ok ps => .ok (.imageUrl { url := dataUri bytes } :: ps)

/-- The user message assembled by `prepare_user_message`: one text part for
the prompt followed by the image parts in input order. -/
def userMessage (prompt : String) (ps : List MessagePart) : Message :=
  { role := "user", content := .Parts (.text prompt :: ps) }

/-- Embeds `ChatSession::prepare_user_message` (`src/api.rs:265-288`): build
the parts, then push the user message onto the history. A failed image read
returns before the push, leaving the history untouched. -/
def ChatSession.prepare_user_message (s : ChatSession) (prompt : String)
    (images : List ImageRead) : Except LlamaError ChatSession :=
  match imageParts images with
  | .error e => .error e
  | .ok ps => .ok { s with messages := s.messages ++ [userMessage prompt ps] }

/-- The content extraction at `src/api.rs:309-313`:
`response.choices.first().and_then(|c| c.message.content.clone()).unwrap_or_default()`. -/
def extractContent (r : ChatFullResponse) : String :=
  ((r.choices.head?).bind (fun c => c.message.content)).getD ""

/-- Embeds `ChatSession::chat` (`src/api.rs:297-316`): prepare the user
message (this already appends it to the history), dispatch the non-streaming
request, then push the assistant message and return its text. An error from
either step propagates with the history in whatever state the completed
steps left it. -/
def ChatSession.chat (s : ChatSession) (prompt : String)
    (images : List ImageRead) (net : FullNet) :
    Except LlamaError String × ChatSession :=
  match s.prepare_user_message prompt images with
  | .error e => (.error e, s)
  | .ok s1 =>
    match full_request net with
    | .error e => (.error e, s1)
    | .ok r =>
      let content := extractContent r
      (.ok content, s1.push_text "assistant" content)

/-! ## Stream decoder

The body of `LlamaClient::stream_request` (`src/api.rs:202-218`) is a
`try_stream!` loop over the response's lines. One line read is either a
line or an I/O failure of the underlying reader; `serde_json::from_str`
is external and injected as the `parse` parameter. Inside `try_stream!`
a `?` yields the error as the final item and ends the generator, so a
failed line read or a failed parse is terminal. -/

/-- Embeds Rust's `str::trim` (whitespace removed from both ends), on the
character level so that it computes by kernel reduction. -/
def trimString (s : String) : String :=
  String.mk
    (((s.data.dropWhile Char.isWhitespace).reverse.dropWhile
        Char.isWhitespace).reverse)

/-- Embeds `line.strip_prefix("data: ")`: the remainder after the six
characters of `data: `, when the line starts with them. -/
def stripData (line : String) : Option String :=
  if "data: ".data.isPrefixOf line.data then
    some (String.mk (line.data.drop 6))
  else none

/-- The events one successfully parsed chunk contributes
(`src/api.rs:208-215`): from the first choice only, the reasoning delta
first, then the content delta, each only when present. -/
def chunkEvents (chunk : ChatChunk) : List ChatEvent :=
  match chunk.choices.head? with
  | none => []
  | some choice =>
    (match choice.delta.reasoning_content with
     | some r => [ChatEvent.Reasoning r]
     | none => []) ++
    (match choice.delta.content with
     | some c => [ChatEvent.Content c]
     | none => [])

/-- Embeds the `try_stream!` loop of `LlamaClient::stream_request`
(`src/api.rs:202-218`) as a function from the sequence of line reads to the
sequence of items the stream yields. Each line is trimmed; empty lines and
the `data: [DONE]` sentinel are skipped; a line without the `data: ` prefix
is skipped; a parse failure (or a line-read failure) yields one terminal
error item. -/
def streamEvents (parse : String → Except String ChatChunk) :
    List (Except String String) → List (Except LlamaError ChatEvent)
  | [] => []
  | .error msg :: _ => [.error (.Io msg)]
  | .ok rawLine :: rest =>
    if trimString rawLine = "" ∨ trimString rawLine = "data: [DONE]" then
      streamEvents parse rest
    else
      match stripData (trimString rawLine) with
      | none => streamEvents parse rest
      | some data =>
        match parse data with
        | .error e => [.error (.Json e)]
        | .ok chunk =>
          (chunkEvents chunk).map .ok ++ streamEvents parse rest

/-! ## The `ChatResponseStream` wrapper

`ChatResponseStream::poll_next` (`src/api.rs:228-246`) forwards items from
the inner stream, accumulating the text of every `Ok(Content)` item; when
the inner stream is exhausted (`Poll::Ready(None)`) it takes the
accumulated text and, only if it is non-empty, pushes it as an assistant
message. Draining the stream to natural exhaustion therefore folds the item
list and commits once at the end. -/

/-- The accumulated content after forwarding a list of items: the in-order
concatenation of the payloads of the `Ok(Content)` items, starting from the
given accumulator. -/
def accumulateContent (acc : String) :
    List (Except LlamaError ChatEvent) → String
  | [] => acc
  | .ok (.Content c) :: rest => accumulateContent (acc ++ c) rest
  | _ :: rest => accumulateContent acc rest

/-- Embeds draining a `ChatResponseStream` to exhaustion
(`src/api.rs:228-246`): the session that results after every item has been
polled and the terminal `Poll::Ready(None)` has run the commit step. -/
def drainStream (s : ChatSession) (acc : String) :
    List (Except LlamaError ChatEvent) → ChatSession
  | [] => if acc = "" then s else s.push_text "assistant" acc
  | .ok (.Content c) :: rest => drainStream s (acc ++ c) rest
  | _ :: rest => drainStream s acc rest

/-! ## Local decode engine

`ResponseStream::next` (`src/bindings.rs:152-184`, and its twin
`src/main.rs:203-237`). The llama.cpp FFI is injected as a `LocalModel`
oracle: the sampler's successive picks become an explicit token sequence
(one token consumed per pull that reaches the sampler), and the
end-of-generation test, detokenization, batch construction and decode call
become oracle functions of the token (and, for the batch/decode, of the
position it is placed at). -/

/-- Oracle for the llama.cpp calls made by one generation step. -/
structure LocalModel where
  is_eog : Nat → Bool
  token_to_str : Nat → Except String String
  batch_add_ok : Nat → Nat → Bool
  decode_ok : Nat → Nat → Bool

/-- The mutable state one generation step touches: the session's `n_past`
(borrowed mutably by the stream) and the stream's `is_done` flag. -/
structure LocalState where
  n_past : Nat
  is_done : Bool
  deriving DecidableEq, Repr

/-- Embeds `ResponseStream::next` (`src/bindings.rs:152-184`) for one pull,
given the token the sampler would select: if the stream is done, yield
nothing; if the token is end-of-generation, mark done and yield nothing
(without touching `n_past`); otherwise detokenize, place the token at
position `n_past` in a one-token batch, advance `n_past` by one, decode,
and yield the fragment. Failures of detokenization or batch construction
yield an error without advancing `n_past`; a decode failure yields an error
after `n_past` has already been advanced, exactly as in the source. -/
def ResponseStream.next (m : LocalModel) (tok : Nat) (st : LocalState) :
    Option (Except String String) × LocalState :=
  if st.is_done then (none, st)
  else if m.is_eog tok then (none, { st with is_done := true })
  else
    match m.token_to_str tok with
    | .error e => (some (.error e), st)
    | .ok piece =>
      if !m.batch_add_ok tok st.n_past then
        (some (.error "batch add failed"), st)
      else
        let st1 : LocalState := { st with n_past := st.n_past + 1 }
        if !m.decode_ok tok st.n_past then
          (some (.error "decode failed"), st1)
        else
          (some (.ok piece), st1)

/-- Pulling the local stream repeatedly, feeding it the sampler's successive
picks, until it yields `none` (or the pick sequence is exhausted): the items
yielded and the final state. -/
def runStream (m : LocalModel) : List Nat → LocalState →
    List (Except String String) × LocalState
  | [], st => ([], st)
  | tok :: rest, st =>
    match ResponseStream.next m tok st with
    | (none, st1) => ([], st1)
    | (some item, st1) =>
      (item :: (runStream m rest st1).1, (runStream m rest st1).2)

/-! ## Local session -/

/-- Embeds the session-level state of `Session` (`src/bindings.rs:58-64`)
that the claims concern: the cache-position counter `n_past` and the set of
cached positions (the KV cache itself lives behind the FFI; it is
abstracted as the list of positions that have been evaluated into it). -/
structure LocalSession where
  n_past : Nat
  kv_cache : List Nat
  deriving DecidableEq, Repr

/-- Embeds `Session::reset` (`src/bindings.rs:92-95`):
`self.context.clear_kv_cache(); self.n_past = 0;`. -/
def LocalSession.reset (_s : LocalSession) : LocalSession :=
  { n_past := 0, kv_cache := [] }

/-- Modelled from the spec: `eval_chunks` (the llama.cpp call at
`src/bindings.rs:129-130`) evaluates the prompt chunks and returns the new
`n_past`, "advancing `n_past` by the number of positions consumed"; the
consumed positions enter the KV cache. The call itself is external FFI; only
this advancing behavior is modelled. -/
def LocalSession.eval_chunks (s : LocalSession) (consumed : Nat) :
    LocalSession :=
  { n_past := s.n_past + consumed,
    kv_cache := s.kv_cache ++ (List.range consumed).map (s.n_past + ·) }

/-! ## Concrete fixtures used by witnesses and counterexamples -/

/-- A fresh session with an empty history. -/
def sessEx : ChatSession := { model := "m", messages := [] }

/-- A backend exchange answering HTTP 500 with body `overloaded`. -/
def netOverloaded : FullNet := .resp 500 "overloaded" (.error "not json")

/-- A 2xx exchange whose well-formed body lacks
`choices[0].message.content`. -/
def netNoContent : FullNet :=
  .resp 200 "ok-body" (.ok { choices := [{ message := { content := none } }] })

/-- The serialized chunk line payload used by the stream fixtures:
`{"choices":[{"delta":{"content":"x"}}]}`. -/
def chunkJsonX : String :=
  "\x7b\"choices\":[\x7b\"delta\":\x7b\"content\":\"x\"\x7d\x7d]\x7d"

/-- A stand-in for `serde_json::from_str::<ChatChunk>` on the fixture
inputs: it parses `chunkJsonX` to the chunk with one content delta `x`
(exactly as `serde_json` does) and rejects everything else. -/
def fixtureParse (s : String) : Except String ChatChunk :=
  if s = chunkJsonX then
    .ok { choices := [{ delta := { content := some "x",
                                   reasoning_content := none } }] }
  else .error "invalid chunk"

/-! ## Helper lemmas -/

theorem charToSixbit_sixbitToChar : ∀ n, n < 64 →
    charToSixbit (sixbitToChar n) = some n := by
  decide

theorem sixbitToChar_ne_pad : ∀ n, n < 64 → sixbitToChar n ≠ '=' := by
  decide

theorem decode_byte1 (a b : Nat) (hb : b < 256) :
    a / 4 * 4 + (a % 4 * 16 + b / 16) / 16 = a := by
  omega

theorem decode_byte2 (a b c : Nat) (hb : b < 256) (hc : c < 256) :
    (a % 4 * 16 + b / 16) % 16 * 16 + (b % 16 * 4 + c / 64) / 4 = b := by
  omega

theorem decode_byte3 (b c : Nat) (hc : c < 256) :
    (b % 16 * 4 + c / 64) % 4 * 64 + c % 64 = c := by
  omega

/-! ## C6: MIME selection and data-URI shape -/

/-- C6: a byte sequence with the PNG magic header is encoded with MIME type
`image/png`; an unrecognized byte sequence falls back to the default
`image/jpeg`; MIME selection is total (it is a plain function, never an
error), and the encoded part is `data:<mime>;base64,<base64 of bytes>`. -/
theorem c6_mime_selection (bytes : List Nat) :
    (pngMagic.isPrefixOf bytes = true → mimeType bytes = "image/png") ∧
    (infer_get bytes = none → mimeType bytes = "image/jpeg") ∧
    dataUri bytes = "data:" ++ mimeType bytes ++ ";base64," ++ b64encode bytes := by
  refine ⟨fun h => ?_, fun h => ?_, rfl⟩
  · simp [mimeType, infer_get, h]
  · simp [mimeType, h]

/-- Witness for C6: the PNG header selects `image/png`, and a three-byte
garbage buffer (recognized by no matcher) selects the `image/jpeg`
default. -/
theorem c6_mime_selection_witness :
    mimeType [0x89, 0x50, 0x4E, 0x47, 0, 1] = "image/png" ∧
    mimeType [0, 1, 2] = "image/jpeg" :=
  ⟨(c6_mime_selection [0x89, 0x50, 0x4E, 0x47, 0, 1]).1 (by decide),
   (c6_mime_selection [0, 1, 2]).2.1 (by decide)⟩

/-! ## C7: base64 round-trip through the data-URI -/

theorem b64decodeList_b64encodeList (bytes : List Nat)
    (h : ∀ x ∈ bytes, x < 256) :
    b64decodeList (b64encodeList bytes) = some bytes := by
  induction bytes using b64encodeList.induct with
  | case1 =>
    rfl
  | case2 a =>
    have ha : a < 256 := h a (by simp)
    have h1 : a / 4 < 64 := by omega
    have h2 : a % 4 * 16 < 64 := by omega
    have e1 : a / 4 * 4 + a % 4 * 16 / 16 = a := by omega
    simp only [b64encodeList, b64decodeList]
    rw [if_pos (by simp)]
    simp only [charToSixbit_sixbitToChar _ h1, charToSixbit_sixbitToChar _ h2]
    rw [if_pos (by omega)]
    simp only [e1]
  | case3 a b =>
    have ha : a < 256 := h a (by simp)
    have hb : b < 256 := h b (by simp)
    have h1 : a / 4 < 64 := by omega
    have h2 : a % 4 * 16 + b / 16 < 64 := by omega
    have h3 : b % 16 * 4 < 64 := by omega
    have hne3 := sixbitToChar_ne_pad _ h3
    have e1 := decode_byte1 a b hb
    have e2 : (a % 4 * 16 + b / 16) % 16 * 16 + b % 16 * 4 / 4 = b := by omega
    simp only [b64encodeList, b64decodeList]
    rw [if_neg (by exact fun hcon => hne3 hcon.1), if_pos (by simp)]
    simp only [charToSixbit_sixbitToChar _ h1, charToSixbit_sixbitToChar _ h2,
      charToSixbit_sixbitToChar _ h3]
    rw [if_pos (by omega)]
    simp only [e1, e2]
  | case4 a b c rest ih =>
    have ha : a < 256 := h a (by simp)
    have hb : b < 256 := h b (by simp)
    have hc : c < 256 := h c (by simp)
    have h1 : a / 4 < 64 := by omega
    have h2 : a % 4 * 16 + b / 16 < 64 := by omega
    have h3 : b % 16 * 4 + c / 64 < 64 := by omega
    have h4 : c % 64 < 64 := by omega
    have hne3 := sixbitToChar_ne_pad _ h3
    have hne4 := sixbitToChar_ne_pad _ h4
    have ihr := ih (fun x hx => h x (by simp [hx]))
    have e1 := decode_byte1 a b hb
    have e2 := decode_byte2 a b c hb hc
    have e3 := decode_byte3 b c hc
    simp only [b64encodeList, b64decodeList]
    rw [if_neg (by exact fun hcon => hne3 hcon.1),
      if_neg (by exact fun hcon => hne4 hcon.1)]
    simp only [charToSixbit_sixbitToChar _ h1, charToSixbit_sixbitToChar _ h2,
      charToSixbit_sixbitToChar _ h3, charToSixbit_sixbitToChar _ h4, ihr]
    simp only [e1, e2, e3]

/-- C7: for every byte sequence, the data-URI the encoder produces is the
fixed prefix `data:<mime>;base64,` followed by the base64 payload, and
base64-decoding that payload yields exactly the original bytes. -/
theorem c7_roundtrip (bytes : List Nat) (h : ∀ x ∈ bytes, x < 256) :
    (dataUri bytes).data
      = ("data:" ++ mimeType bytes ++ ";base64,").data
          ++ (b64encode bytes).data ∧
    b64decode (b64encode bytes) = some bytes := by
  constructor
  · simp [dataUri, String.data_append]
  · exact b64decodeList_b64encodeList bytes h

/-- Witness for C7: the round-trip at a concrete five-byte buffer (which
exercises both a full three-byte group and a padded two-byte tail). -/
theorem c7_roundtrip_witness :
    b64decode (b64encode [77, 97, 110, 255, 0]) = some [77, 97, 110, 255, 0] :=
  (c7_roundtrip [77, 97, 110, 255, 0] (by decide)).2

/-! ## Evaluation lemmas for `ChatSession.chat` -/

theorem full_request_api_error (status : Nat) (body : String)
    (j : Except String ChatFullResponse) (h : isSuccess status = false) :
    full_request (.resp status body j) = .error (.Api status body) := by
  unfold full_request
  simp [h]

theorem full_request_ok (status : Nat) (body : String) (r : ChatFullResponse)
    (h : isSuccess status = true) :
    full_request (.resp status body (.ok r)) = .ok r := by
  unfold full_request
  simp [h]

theorem chat_eq_of_prep_error (s : ChatSession) (prompt : String)
    (images : List ImageRead) (net : FullNet) (e0 : LlamaError)
    (h : imageParts images = .error e0) :
    s.chat prompt images net = (.error e0, s) := by
  unfold ChatSession.chat ChatSession.prepare_user_message
  rw [h]

theorem chat_eq_of_net_error (s : ChatSession) (prompt : String)
    (images : List ImageRead) (net : FullNet) (ps : List MessagePart)
    (e1 : LlamaError)
    (hps : imageParts images = .ok ps)
    (hnet : full_request net = .error e1) :
    s.chat prompt images net
      = (.error e1,
         { s with messages := s.messages ++ [userMessage prompt ps] }) := by
  unfold ChatSession.chat ChatSession.prepare_user_message
  rw [hps, hnet]

theorem chat_eq_of_ok (s : ChatSession) (prompt : String)
    (images : List ImageRead) (net : FullNet) (ps : List MessagePart)
    (r : ChatFullResponse)
    (hps : imageParts images = .ok ps)
    (hnet : full_request net = .ok r) :
    s.chat prompt images net
      = (.ok (extractContent r),
         { s with messages := s.messages ++
             [userMessage prompt ps,
              { role := "assistant", content := .Text (extractContent r) }] }) := by
  unfold ChatSession.chat ChatSession.prepare_user_message
  rw [hps, hnet]
  simp [ChatSession.push_text]

/-! ## C1: history after a failed chat call -/

/-- Counterexample for C1: on an empty session, a backend answering HTTP 500
with body `overloaded` makes `chat` return `ApiError{500, "overloaded"}` as
the claim demands — but the history after the call is NOT the history before
the call: the user message pushed by `prepare_user_message` remains. -/
theorem c1_counterexample :
    (sessEx.chat "hi" [] netOverloaded).1 = .error (.Api 500 "overloaded") ∧
    (sessEx.chat "hi" [] netOverloaded).2.messages ≠ sessEx.messages := by
  constructor
  · rfl
  · decide

/-- C1 (amended): on every failed `chat` call no assistant message is
committed — the history is either exactly as before the call (an image-read
failure aborts before any mutation) or exactly the prior history plus the
single user message built for the request, which `prepare_user_message`
appends before dispatch and which a dispatch failure leaves behind. In the
particular scenario of a backend answering HTTP 500 with body `overloaded`
(with all images readable), the call yields `ApiError{500, "overloaded"}`
and the history is the prior history plus that user message. -/
theorem c1_failed_call_history (s : ChatSession) (prompt : String)
    (images : List ImageRead) (net : FullNet) (e : LlamaError)
    (h : (s.chat prompt images net).1 = .error e) :
    ((s.chat prompt images net).2.messages = s.messages ∨
      ∃ ps, imageParts images = .ok ps ∧
        (s.chat prompt images net).2.messages
          = s.messages ++ [userMessage prompt ps]) ∧
    (∀ ps j, imageParts images = .ok ps →
      net = .resp 500 "overloaded" j →
      e = .Api 500 "overloaded" ∧
      (s.chat prompt images net).2.messages
        = s.messages ++ [userMessage prompt ps]) := by
  cases hip : imageParts images with
  | error e0 =>
    rw [chat_eq_of_prep_error s prompt images net e0 hip]
    refine ⟨Or.inl rfl, fun ps j hps _ => ?_⟩
    cases hps
  | ok ps0 =>
    cases hnet : full_request net with
    | error e1 =>
      rw [chat_eq_of_net_error s prompt images net ps0 e1 hip hnet]
      refine ⟨Or.inr ⟨ps0, rfl, rfl⟩, fun ps j hps hn => ?_⟩
      obtain rfl : ps0 = ps := by
        cases hps
        rfl
      subst hn
      rw [full_request_api_error 500 "overloaded" j rfl] at hnet
      cases hnet
      rw [chat_eq_of_net_error s prompt images _ ps0 _ hip
        (full_request_api_error 500 "overloaded" j rfl)] at h
      cases h
      exact ⟨rfl, rfl⟩
    | ok r =>
      rw [chat_eq_of_ok s prompt images net ps0 r hip hnet] at h
      cases h

/-- Witness for C1 (amended): the amended theorem applied at the concrete
500/`overloaded` scenario on an empty session. -/
theorem c1_failed_call_history_witness :
    ((sessEx.chat "hi" [] netOverloaded).2.messages = sessEx.messages ∨
      ∃ ps, imageParts [] = .ok ps ∧
        (sessEx.chat "hi" [] netOverloaded).2.messages
          = sessEx.messages ++ [userMessage "hi" ps]) ∧
    (∀ ps j, imageParts [] = .ok ps →
      netOverloaded = .resp 500 "overloaded" j →
      LlamaError.Api 500 "overloaded" = .Api 500 "overloaded" ∧
      (sessEx.chat "hi" [] netOverloaded).2.messages
        = sessEx.messages ++ [userMessage "hi" ps]) :=
  c1_failed_call_history sessEx "hi" [] netOverloaded
    (.Api 500 "overloaded") rfl

/-! ## C5: 2xx response lacking `choices[0].message.content` -/

/-- Counterexample for C5: a 2xx response whose body parses but carries no
`choices[0].message.content` makes `chat` return successfully with the empty
string — not a `MalformedResponse` error (no such error exists in the
code's error type). -/
theorem c5_counterexample :
    (sessEx.chat "hi" [] netNoContent).1 = .ok "" := by
  rfl

/-- C5 (amended): on every 2xx response whose body parses as
`ChatFullResponse` but where `choices[0].message.content` is absent, `chat`
returns successfully with the empty string (the `unwrap_or_default`
fallback) and commits an assistant message with empty text after the
prepared user message. -/
theorem c5_missing_content_defaults (s : ChatSession) (prompt : String)
    (images : List ImageRead) (ps : List MessagePart)
    (status : Nat) (body : String) (r : ChatFullResponse)
    (hps : imageParts images = .ok ps)
    (hstatus : isSuccess status = true)
    (hmissing : (r.choices.head?).bind (fun c => c.message.content) = none) :
    (s.chat prompt images (.resp status body (.ok r))).1 = .ok "" ∧
    (s.chat prompt images (.resp status body (.ok r))).2.messages
      = s.messages ++
        [userMessage prompt ps,
         { role := "assistant", content := .Text "" }] := by
  have hext : extractContent r = "" := by
    unfold extractContent
    rw [hmissing]
    rfl
  rw [chat_eq_of_ok s prompt images _ ps r hps
    (full_request_ok status body r hstatus), hext]
  exact ⟨rfl, rfl⟩

/-- Witness for C5 (amended): the concrete 2xx exchange `netNoContent`
(one choice, `content` absent) on an empty session. -/
theorem c5_missing_content_defaults_witness :
    (sessEx.chat "hi" [] (.resp 200 "ok-body"
        (.ok { choices := [{ message := { content := none } }] }))).1
      = .ok "" ∧
    (sessEx.chat "hi" [] (.resp 200 "ok-body"
        (.ok { choices := [{ message := { content := none } }] }))).2.messages
      = sessEx.messages ++
        [userMessage "hi" [],
         { role := "assistant", content := .Text "" }] :=
  c5_missing_content_defaults sessEx "hi" [] [] 200 "ok-body"
    { choices := [{ message := { content := none } }] } rfl rfl rfl

/-! ## One-step evaluation lemmas for `streamEvents` -/

theorem streamEvents_cons_skip (parse : String → Except String ChatChunk)
    (rl : String) (tail : List (Except String String))
    (h : trimString rl = "" ∨ trimString rl = "data: [DONE]") :
    streamEvents parse (.ok rl :: tail) = streamEvents parse tail := by
  simp only [streamEvents]
  rw [if_pos h]

theorem streamEvents_cons_noData (parse : String → Except String ChatChunk)
    (rl : String) (tail : List (Except String String))
    (h1 : ¬(trimString rl = "" ∨ trimString rl = "data: [DONE]"))
    (h2 : stripData (trimString rl) = none) :
    streamEvents parse (.ok rl :: tail) = streamEvents parse tail := by
  simp only [streamEvents]
  rw [if_neg h1, h2]

theorem streamEvents_cons_parseError (parse : String → Except String ChatChunk)
    (rl : String) (tail : List (Except String String)) (d emsg : String)
    (h1 : ¬(trimString rl = "" ∨ trimString rl = "data: [DONE]"))
    (h2 : stripData (trimString rl) = some d)
    (h3 : parse d = .error emsg) :
    streamEvents parse (.ok rl :: tail) = [.error (.Json emsg)] := by
  simp only [streamEvents]
  rw [if_neg h1, h2]
  simp only [h3]

theorem streamEvents_cons_parsed (parse : String → Except String ChatChunk)
    (rl : String) (tail : List (Except String String)) (d : String)
    (chunk : ChatChunk)
    (h1 : ¬(trimString rl = "" ∨ trimString rl = "data: [DONE]"))
    (h2 : stripData (trimString rl) = some d)
    (h3 : parse d = .ok chunk) :
    streamEvents parse (.ok rl :: tail)
      = (chunkEvents chunk).map .ok ++ streamEvents parse tail := by
  simp only [streamEvents]
  rw [if_neg h1, h2]
  simp only [h3]

/-! ## C3: the `data: [DONE]` sentinel -/

/-- The fixture line carrying the serialized chunk. -/
def chunkLineX : String := "data: " ++ chunkJsonX

/-- Counterexample for C3: a well-formed chunk line placed AFTER the
`data: [DONE]` sentinel still produces its event — the decoder skips the
sentinel (`continue`) instead of ending the sequence there. -/
theorem c3_counterexample :
    streamEvents fixtureParse [.ok "data: [DONE]", .ok chunkLineX]
      = [.ok (.Content "x")] := by
  decide

/-- C3 (amended): the sentinel line `data: [DONE]` itself produces no event,
but it does not end the sequence: decoding a sentinel line followed by any
remaining lines produces exactly the events of the remaining lines, which
are processed normally. -/
theorem c3_sentinel_is_skipped (parse : String → Except String ChatChunk)
    (rawLine : String) (rest : List (Except String String))
    (h : trimString rawLine = "data: [DONE]") :
    streamEvents parse (.ok rawLine :: rest) = streamEvents parse rest := by
  simp only [streamEvents]
  rw [if_pos (Or.inr h)]

/-- Witness for C3 (amended): the sentinel line before the fixture chunk
line is skipped. -/
theorem c3_sentinel_is_skipped_witness :
    streamEvents fixtureParse [.ok "data: [DONE]", .ok chunkLineX]
      = streamEvents fixtureParse [.ok chunkLineX] :=
  c3_sentinel_is_skipped fixtureParse "data: [DONE]" [.ok chunkLineX]
    (by decide)

/-! ## C4: malformed chunk JSON is terminal -/

/-- C4: a line that starts with the `data: ` prefix but whose payload the
chunk parser rejects yields exactly one terminal `Json` decode-error item,
and nothing that follows it in the body is consumed: the decoded sequence
of any line list containing such a line is unchanged when everything after
that line is dropped. -/
theorem c4_decode_error_terminal (parse : String → Except String ChatChunk)
    (rawLine : String) (pre rest : List (Except String String))
    (data emsg : String)
    (hsent : trimString rawLine ≠ "data: [DONE]")
    (hdata : stripData (trimString rawLine) = some data)
    (hbad : parse data = .error emsg) :
    streamEvents parse (.ok rawLine :: rest) = [.error (.Json emsg)] ∧
    streamEvents parse (pre ++ .ok rawLine :: rest)
      = streamEvents parse (pre ++ [.ok rawLine]) := by
  have hempty : trimString rawLine ≠ "" := by
    intro h0
    rw [h0, (by decide : stripData "" = none)] at hdata
    cases hdata
  have hcond : ¬(trimString rawLine = "" ∨ trimString rawLine = "data: [DONE]") := by
    rintro (hc | hc)
    · exact hempty hc
    · exact hsent hc
  have hbase : ∀ tail, streamEvents parse (.ok rawLine :: tail)
      = [.error (.Json emsg)] :=
    fun tail => streamEvents_cons_parseError parse rawLine tail data emsg
      hcond hdata hbad
  refine ⟨hbase rest, ?_⟩
  induction pre with
  | nil =>
    rw [List.nil_append, List.nil_append, hbase rest, hbase []]
  | cons x pre ih =>
    cases x with
    | error m =>
      rw [List.cons_append, List.cons_append]
      rfl
    | ok rl =>
      rw [List.cons_append, List.cons_append]
      by_cases hskip : trimString rl = "" ∨ trimString rl = "data: [DONE]"
      · rw [streamEvents_cons_skip parse rl _ hskip,
          streamEvents_cons_skip parse rl _ hskip, ih]
      · cases hs : stripData (trimString rl) with
        | none =>
          rw [streamEvents_cons_noData parse rl _ hskip hs,
            streamEvents_cons_noData parse rl _ hskip hs, ih]
        | some d =>
          cases hp : parse d with
          | error e2 =>
            rw [streamEvents_cons_parseError parse rl _ d e2 hskip hs hp,
              streamEvents_cons_parseError parse rl _ d e2 hskip hs hp]
          | ok chunk =>
            rw [streamEvents_cons_parsed parse rl _ d chunk hskip hs hp,
              streamEvents_cons_parsed parse rl _ d chunk hskip hs hp, ih]

/-- Witness for C4: a `data: bogus` line whose payload the parser rejects,
surrounded by well-formed chunk lines on both sides. -/
theorem c4_decode_error_terminal_witness :
    streamEvents fixtureParse
        [.ok "data: bogus", .ok chunkLineX] = [.error (.Json "invalid chunk")] ∧
    streamEvents fixtureParse
        ([.ok chunkLineX] ++ .ok "data: bogus" :: [.ok chunkLineX])
      = streamEvents fixtureParse ([.ok chunkLineX] ++ [.ok "data: bogus"]) :=
  c4_decode_error_terminal fixtureParse "data: bogus" [.ok chunkLineX]
    [.ok chunkLineX] "bogus" "invalid chunk" (by decide) (by decide) (by decide)

/-! ## C2 and C10: the exactly-once commit on natural exhaustion -/

theorem drainStream_eq (s : ChatSession)
    (items : List (Except LlamaError ChatEvent)) : ∀ acc,
    drainStream s acc items
      = if accumulateContent acc items = "" then s
        else s.push_text "assistant" (accumulateContent acc items) := by
  induction items with
  | nil => intro acc; rfl
  | cons x rest ih =>
    intro acc
    cases x with
    | error e => exact ih acc
    | ok ev =>
      cases ev with
      | Content c => exact ih (acc ++ c)
      | Reasoning r => exact ih acc

/-- Counterexample for C2: a stream drained to natural exhaustion whose only
delta is a Reasoning fragment appends NO assistant message (the commit is
guarded by `!content.is_empty()`), so "exactly one assistant message is
appended" fails for it. -/
theorem c2_counterexample :
    drainStream sessEx "" [.ok (.Reasoning "r")] = sessEx ∧
    (drainStream sessEx "" [.ok (.Reasoning "r")]).messages = [] := by
  exact ⟨rfl, rfl⟩

/-- C2 (amended): for every streamed call drained to natural exhaustion
whose accumulated content is non-empty, exactly one assistant message is
appended, and its text is the in-order concatenation of the `Content`
event fragments — `Reasoning` fragments never contribute (streams whose
content concatenation is empty append nothing, see the C10 theorem). In
particular, content deltas `a`, `b`, `c` commit one message `abc`. -/
theorem c2_commit_concatenation (s : ChatSession)
    (items : List (Except LlamaError ChatEvent))
    (h : accumulateContent "" items ≠ "") :
    (drainStream s "" items).messages
      = s.messages ++
        [{ role := "assistant",
           content := .Text (accumulateContent "" items) }] := by
  rw [drainStream_eq s items "", if_neg h]
  rfl

/-- Witness for C2 (amended): deltas `a`, `b`, `c` with no reasoning deltas
commit exactly one assistant message `abc`. -/
theorem c2_commit_concatenation_witness :
    (drainStream sessEx ""
        [.ok (.Content "a"), .ok (.Content "b"), .ok (.Content "c")]).messages
      = [{ role := "assistant", content := .Text "abc" }] :=
  c2_commit_concatenation sessEx
    [.ok (.Content "a"), .ok (.Content "b"), .ok (.Content "c")] (by decide)

theorem accumulate_filter_content
    (items : List (Except LlamaError ChatEvent)) : ∀ acc,
    accumulateContent acc
        (items.filter fun it =>
          match it with
          | .ok (.Content _) => true
          | _ => false)
      = accumulateContent acc items := by
  induction items with
  | nil => intro acc; rfl
  | cons x rest ih =>
    intro acc
    cases x with
    | error e =>
      rw [List.filter_cons_of_neg (by simp)]
      exact ih acc
    | ok ev =>
      cases ev with
      | Content c =>
        rw [List.filter_cons_of_pos (by rfl)]
        exact ih (acc ++ c)
      | Reasoning r =>
        rw [List.filter_cons_of_neg (by simp)]
        exact ih acc

/-- C10: on natural exhaustion an assistant message is committed if and
only if the accumulated content is non-empty (so a reasoning-only or empty
stream appends nothing), the committed text is the accumulated content, and
error items contribute nothing to the accumulation: restricting the item
list to its `Ok(Content)` items leaves the accumulated text unchanged. -/
theorem c10_commit_iff_nonempty (s : ChatSession)
    (items : List (Except LlamaError ChatEvent)) :
    ((drainStream s "" items).messages
      = s.messages ++
        (if accumulateContent "" items = "" then []
         else [{ role := "assistant",
                 content := .Text (accumulateContent "" items) }])) ∧
    accumulateContent ""
        (items.filter fun it =>
          match it with
          | .ok (.Content _) => true
          | _ => false)
      = accumulateContent "" items := by
  refine ⟨?_, accumulate_filter_content items ""⟩
  rw [drainStream_eq s items ""]
  by_cases h : accumulateContent "" items = ""
  · rw [if_pos h, if_pos h, List.append_nil]
  · rw [if_neg h, if_neg h]
    rfl

/-! ## C8: end-of-generation handling in the local decode loop -/

/-- A concrete error-free local model used by the C8 witness: token `99` is
the end-of-generation token, every other token detokenizes to `"T"`, and
batch construction and decoding always succeed. -/
def localModelEx : LocalModel :=
  { is_eog := (· == 99),
    token_to_str := fun _ => .ok "T",
    batch_add_ok := fun _ _ => true,
    decode_ok := fun _ _ => true }

/-- C8: in an error-free generation run whose sampler picks are the non-eog
tokens `pre` followed by an end-of-generation token `e` (and then anything),
the run stops at `e`: it yields exactly one `Ok` fragment per token of
`pre` and nothing for `e`, the picks after `e` are never consumed (the
result equals the run on `pre ++ [e]` alone), `n_past` has advanced by
exactly one per fragment emitted — not for `e` — and once terminated every
further pull yields nothing. -/
theorem c8_eog_terminates (m : LocalModel) (pre post : List Nat) (e : Nat)
    (st : LocalState)
    (hlive : st.is_done = false)
    (heog : m.is_eog e = true)
    (hpre : ∀ t ∈ pre, m.is_eog t = false ∧ ∃ s, m.token_to_str t = .ok s)
    (hbatch : ∀ t p, m.batch_add_ok t p = true)
    (hdec : ∀ t p, m.decode_ok t p = true) :
    ((runStream m (pre ++ e :: post) st).1.length = pre.length ∧
      ∀ item ∈ (runStream m (pre ++ e :: post) st).1, ∃ s, item = .ok s) ∧
    (runStream m (pre ++ e :: post) st).2.n_past = st.n_past + pre.length ∧
    (runStream m (pre ++ e :: post) st).2.is_done = true ∧
    runStream m (pre ++ e :: post) st = runStream m (pre ++ [e]) st ∧
    (∀ tok st2, st2.is_done = true →
      ResponseStream.next m tok st2 = (none, st2)) := by
  have hdone : ∀ tok (st2 : LocalState), st2.is_done = true →
      ResponseStream.next m tok st2 = (none, st2) := by
    intro tok st2 h2
    unfold ResponseStream.next
    rw [if_pos h2]
  induction pre generalizing st with
  | nil =>
    have hstep : ResponseStream.next m e st
        = (none, { st with is_done := true }) := by
      simp [ResponseStream.next, hlive, heog]
    have hrun : runStream m ([] ++ e :: post) st
        = ([], { st with is_done := true }) := by
      rw [List.nil_append]
      simp only [runStream, hstep]
    have hrun1 : runStream m ([] ++ [e]) st
        = ([], { st with is_done := true }) := by
      rw [List.nil_append]
      simp only [runStream, hstep]
    rw [hrun, hrun1]
    refine ⟨⟨rfl, by simp⟩, by simp, rfl, rfl, hdone⟩
  | cons t pre ih =>
    obtain ⟨hte, s, hts⟩ := hpre t (by simp)
    have hstep : ResponseStream.next m t st
        = (some (.ok s), { st with n_past := st.n_past + 1 }) := by
      simp [ResponseStream.next, hlive, hte, hts, hbatch, hdec]
    obtain ⟨⟨ihlen, ihok⟩, ihn, ihdone, ihpost, _⟩ :=
      ih { st with n_past := st.n_past + 1 } hlive
        (fun u hu => hpre u (by simp [hu]))
    have hrun : runStream m ((t :: pre) ++ e :: post) st
        = (Except.ok s ::
            (runStream m (pre ++ e :: post)
              { st with n_past := st.n_past + 1 }).1,
           (runStream m (pre ++ e :: post)
              { st with n_past := st.n_past + 1 }).2) := by
      rw [List.cons_append]
      simp only [runStream, hstep]
    have hrun1 : runStream m ((t :: pre) ++ [e]) st
        = (Except.ok s ::
            (runStream m (pre ++ [e])
              { st with n_past := st.n_past + 1 }).1,
           (runStream m (pre ++ [e])
              { st with n_past := st.n_past + 1 }).2) := by
      rw [List.cons_append]
      simp only [runStream, hstep]
    refine ⟨⟨?_, ?_⟩, ?_, ?_, ?_, hdone⟩
    · rw [hrun]
      simp only [List.length_cons, ihlen]
    · rw [hrun]
      intro item hitem
      rcases List.mem_cons.mp hitem with h0 | h0
      · exact ⟨s, h0⟩
      · exact ihok item h0
    · rw [hrun]
      dsimp only
      rw [ihn]
      show st.n_past + 1 + pre.length = st.n_past + (pre.length + 1)
      omega
    · rw [hrun]
      exact ihdone
    · rw [hrun, hrun1, ihpost]

/-- Witness for C8: two fragments are emitted for picks `[1, 2]`, the eog
token `99` ends the run, the picks `[5, 6]` after it are never consumed,
and `n_past` advances from 7 to exactly 9. -/
theorem c8_eog_terminates_witness :
    ((runStream localModelEx ([1, 2] ++ 99 :: [5, 6])
        { n_past := 7, is_done := false }).1.length = [1, 2].length ∧
      ∀ item ∈ (runStream localModelEx ([1, 2] ++ 99 :: [5, 6])
          { n_past := 7, is_done := false }).1, ∃ s, item = .ok s) ∧
    (runStream localModelEx ([1, 2] ++ 99 :: [5, 6])
        { n_past := 7, is_done := false }).2.n_past = 7 + [1, 2].length ∧
    (runStream localModelEx ([1, 2] ++ 99 :: [5, 6])
        { n_past := 7, is_done := false }).2.is_done = true ∧
    runStream localModelEx ([1, 2] ++ 99 :: [5, 6])
        { n_past := 7, is_done := false }
      = runStream localModelEx ([1, 2] ++ [99]) { n_past := 7, is_done := false } ∧
    (∀ tok st2, st2.is_done = true →
      ResponseStream.next localModelEx tok st2 = (none, st2)) :=
  c8_eog_terminates localModelEx [1, 2] [5, 6] 99
    { n_past := 7, is_done := false } rfl rfl
    (fun t ht => by fin_cases ht <;> exact ⟨rfl, "T", rfl⟩)
    (fun _ _ => rfl) (fun _ _ => rfl)

/-! ## C9: `n_past` monotonicity and reset -/

theorem next_n_past_le (m : LocalModel) (tok : Nat) (st : LocalState) :
    st.n_past ≤ (ResponseStream.next m tok st).2.n_past := by
  unfold ResponseStream.next
  by_cases h1 : st.is_done
  · rw [if_pos h1]
  · rw [if_neg h1]
    by_cases h2 : m.is_eog tok
    · rw [if_pos h2]
    · rw [if_neg h2]
      cases m.token_to_str tok with
      | error e => exact Nat.le_refl _
      | ok piece =>
        dsimp only
        by_cases h3 : !m.batch_add_ok tok st.n_past
        · rw [if_pos h3]
        · rw [if_neg h3]
          by_cases h4 : !m.decode_ok tok st.n_past
          · rw [if_pos h4]
            exact Nat.le_succ _
          · rw [if_neg h4]
            exact Nat.le_succ _

theorem runStream_n_past_le (m : LocalModel) (toks : List Nat)
    (st : LocalState) :
    st.n_past ≤ (runStream m toks st).2.n_past := by
  induction toks generalizing st with
  | nil => exact Nat.le_refl _
  | cons t rest ih =>
    simp only [runStream]
    cases hn : ResponseStream.next m t st with
    | mk o st1 =>
      have h1 : st.n_past ≤ st1.n_past := by
        have := next_n_past_le m t st
        rw [hn] at this
        exact this
      cases o with
      | none => exact h1
      | some item =>
        dsimp only
        exact Nat.le_trans h1 (ih st1)

/-- C9: `reset` on the remote session empties the message history; `reset`
on the local session clears the (abstracted) KV cache and sets `n_past` to
zero; and between resets `n_past` is monotonically non-decreasing across
every operation — prompt evaluation (`eval_chunks`) only advances it, and
so does every pull of the generation stream. -/
theorem c9_reset_and_monotonicity :
    (∀ s : ChatSession, (ChatSession.reset s).messages = []) ∧
    (∀ s : LocalSession, (LocalSession.reset s).n_past = 0 ∧
      (LocalSession.reset s).kv_cache = []) ∧
    (∀ (s : LocalSession) (consumed : Nat),
      s.n_past ≤ (s.eval_chunks consumed).n_past) ∧
    (∀ (m : LocalModel) (tok : Nat) (st : LocalState),
      st.n_past ≤ (ResponseStream.next m tok st).2.n_past) ∧
    (∀ (m : LocalModel) (toks : List Nat) (st : LocalState),
      st.n_past ≤ (runStream m toks st).2.n_past) :=
  ⟨fun _ => rfl,
   fun _ => ⟨rfl, rfl⟩,
   fun _ _ => Nat.le_add_right _ _,
   next_n_past_le,
   runStream_n_past_le⟩

end QwenLlm
